import Mathlib

/-!
Verification of the jito-rust-rpc client: a shallow embedding of the
connection-pool selection algorithms (src/http_client.rs) and of the
bundle/transaction confirmation polling loops (examples/basic_bundle.rs,
examples/basic_txn.rs), together with theorems settling the specified
properties.
-/

namespace JitoRpc

/-! ## JSON model (serde_json::Value) -/

/-- Embedding of `serde_json::Value`. Numbers are modelled as integers,
which suffices for every value the client inspects. -/
inductive Json where
  | null
  | bool (b : Bool)
  | num (n : Int)
  | str (s : String)
  | arr (elems : List Json)
  | obj (fields : List (String × Json))

/-- `Value::get(key)`: `Some` field value on objects, `None` otherwise. -/
def Json.get : Json → String → Option Json
  | .obj fields, key => fields.lookup key
  | _, _ => none

/-- `Value::index` for a string key (the `value[key]` read form): the field
value on objects holding the key, `Null` for a missing key or a non-object. -/
def Json.index (j : Json) (key : String) : Json :=
  (j.get key).getD .null

/-- `Value::as_str`. -/
def Json.as_str : Json → Option String
  | .str s => some s
  | _ => none

/-- `Value::as_array`. -/
def Json.as_array : Json → Option (List Json)
  | .arr xs => some xs
  | _ => none

/-- `Value::is_null`. -/
def Json.is_null : Json → Bool
  | .null => true
  | _ => false

/-! ## Connection pool (src/http_client.rs) -/

/-- `IpSelectAlgorithm`. -/
inductive IpSelectAlgorithm where
  | roundRobin
  | random
deriving DecidableEq

/-- The mutable selection state of `HttpClient`: the round-robin cursor
(`round_robin_index`, behind a mutex in the source) and the last index chosen
by the random algorithm (`last_random_ip`). -/
structure SelectionState where
  round_robin_index : Nat
  last_random_ip : Option Nat
deriving DecidableEq

/-- The state `HttpClient::new` starts from: cursor `0`, no last random index. -/
def initial_state : SelectionState := ⟨0, none⟩

/-- A `reqwest::Client`, abstracted to the one datum the pool cares about:
which local address (if any) it is bound to. -/
inductive ReqwestClient where
  | default
  | boundTo (ip : String)
deriving DecidableEq

/-- One `Client::builder().local_address(Some(ip)).build()` call; `bindErr`
is the environment's verdict (an error message when binding `ip` fails).
Failure becomes `HttpClientError::BindFailed(ip, e)`, here the pair. -/
def buildBound (bindErr : String → Option String) (ip : String) :
    Except (String × String) ReqwestClient :=
  match bindErr ip with
  | some e => .error (ip, e)
  | none => .ok (.boundTo ip)

/-- `ips.iter().map(...).collect::<Result<Vec<_>, _>>()`: build a client per
address, failing fast on the first bind error. -/
def collectClients (bindErr : String → Option String) :
    List String → Except (String × String) (List ReqwestClient)
  | [] => .ok []
  | ip :: rest =>
    match buildBound bindErr ip with
    | .error e => .error e
    | .ok c =>
      match collectClients bindErr rest with
      | .error e => .error e
      | .ok cs => .ok (c :: cs)

/-- The client list built by `HttpClient::new`: one unbound client when `ips`
is empty, otherwise one bound client per address (or the first bind error). -/
def new_clients (ips : List String) (bindErr : String → Option String) :
    Except (String × String) (List ReqwestClient) :=
  if ips.isEmpty then .ok [.default]
  else collectClients bindErr ips

/-- The index computation of `select_client`, one call. `n` is
`self.clients.len()`; `r` models the thread-rng draw (`gen_range` /
`choose` pick position `r % k` among `k` possibilities). Returns `none`
exactly where the source would panic (the `unwrap` on `choose`). -/
def select_index (n : Nat) (alg : IpSelectAlgorithm) (st : SelectionState)
    (r : Nat) : Option (Nat × SelectionState) :=
  match alg with
  | .roundRobin =>
    some (st.round_robin_index,
      { st with round_robin_index := (st.round_robin_index + 1) % n })
  | .random =>
    let candidates := (List.range n).filter (fun i => some i != st.last_random_ip)
    let selected? := if candidates.isEmpty then some (r % n)
                     else candidates[r % candidates.length]?
    selected?.map (fun s => (s, { st with last_random_ip := some s }))

/-- `select_client`: compute the index, then read `self.clients[index]`
(`none` models the out-of-bounds panic). -/
def select_client (clients : List ReqwestClient) (alg : IpSelectAlgorithm)
    (st : SelectionState) (r : Nat) : Option (ReqwestClient × SelectionState) :=
  (select_index clients.length alg st r).bind
    (fun p => (clients[p.1]?).map (fun c => (c, p.2)))

/-- `get_client`: `unreachable!()` on an empty pool (modelled `none`),
`clients[0]` untouched state for a one-client pool, else `select_client`. -/
def get_client (clients : List ReqwestClient) (alg : IpSelectAlgorithm)
    (st : SelectionState) (r : Nat) : Option (ReqwestClient × SelectionState) :=
  match clients.length with
  | 0 => none
  | 1 => (clients[0]?).map (fun c => (c, st))
  | _ + 2 => select_client clients alg st r

/-- `k` successive round-robin selections from state `st` over a pool of size
`n`: the list of selected indices and the final state. -/
def rr_run (n : Nat) (st : SelectionState) : Nat → List Nat × SelectionState
  | 0 => ([], st)
  | k + 1 =>
    match select_index n .roundRobin st 0 with
    | some (i, st2) =>
      let p := rr_run n st2 k
      (i :: p.1, p.2)
    | none => ([], st)

/-! ## Bundle confirmation (examples/basic_bundle.rs) -/

/-- The `BundleStatus` struct decoded from one finalization poll. -/
structure BundleStatus where
  confirmation_status : Option String
  err : Option Json
  transactions : Option (List String)

/-- `get_bundle_status`: extract `result.value[0]` from the response (an
`Err("Failed to parse bundle status")` when any step of the chain fails) and
decode its `confirmation_status` / `err` / `transactions` fields. -/
def get_bundle_status (status_response : Json) : Except String BundleStatus :=
  match ((((status_response.get "result").bind (fun r => r.get "value")).bind
      Json.as_array).bind List.head?) with
  | none => .error "Failed to parse bundle status"
  | some bundle_status =>
    .ok { confirmation_status := (bundle_status.get "confirmation_status").bind Json.as_str
          err := bundle_status.get "err"
          transactions := ((bundle_status.get "transactions").bind Json.as_array).map
            (fun a => a.filterMap Json.as_str) }

/-- `check_transaction_error`: with an `err` payload present, succeed exactly
when `err["Ok"]` is JSON null, else fail; with no payload, succeed. -/
def check_transaction_error (bundle_status : BundleStatus) : Except String Unit :=
  match bundle_status.err with
  | some err =>
    if (err.index "Ok").is_null then .ok ()
    else .error "Transaction encountered an error"
  | none => .ok ()

/-- `print_transaction_url`: the transaction id surfaced for display — the
first constituent signature when the list is present and non-empty. -/
def print_transaction_url (bundle_status : BundleStatus) : Option String :=
  bundle_status.transactions.bind List.head?

/-- What one Phase 1 (in-flight) poll body does with a decoded response. -/
inductive Phase1Step where
  | landed
  | failed
  | cont
deriving DecidableEq

/-- The Phase 1 loop body of `main` on one `getInflightBundleStatuses`
response: the nested field extraction and the match on the status string.
Every arm other than `Landed` and `Failed` logs and keeps polling (`cont`) —
including the JSON-RPC `error` envelope and every malformed shape. -/
def phase1Step (status_response : Json) : Phase1Step :=
  match status_response.get "result" with
  | some result =>
    match result.get "value" with
    | some value =>
      match value.as_array with
      | some statuses =>
        match statuses.head? with
        | some bundle_status =>
          match bundle_status.get "status" with
          | some status =>
            match status.as_str with
            | some "Landed" => .landed
            | some "Pending" => .cont
            | some "Failed" => .failed
            | some "Invalid" => .cont
            | some _ => .cont
            | none => .cont
          | none => .cont
        | none => .cont
      | none => .cont
    | none => .cont
  | none => .cont

/-- The status string a Phase 1 poll extracts:
`result.value[0].status.as_str()`. `none` on any malformed/missing field. -/
def phase1StatusString (j : Json) : Option String :=
  ((((j.get "result").bind (fun r => r.get "value")).bind Json.as_array).bind
    List.head?).bind (fun bs => (bs.get "status").bind Json.as_str)

/-! ### The generic bounded polling loop

Each of the three confirmation loops in the examples is a
`for attempt in 1..=max_retries` loop whose body either returns (a terminal
outcome) or sleeps and retries; falling off the end is exhaustion. -/

/-- Outcome of a bounded polling session. -/
inductive PollResult (β : Type) where
  | terminal (attempt : Nat) (out : β)
  | exhausted (attempts : Nat)
deriving DecidableEq

/-- The polling loop: one response per attempt; `step` returns `some` on a
terminal outcome (early `return`) and `none` to retry. -/
def pollLoop (step : α → Option β) : List α → Nat → PollResult β
  | [], used => .exhausted used
  | x :: rest, used =>
    match step x with
    | some out => .terminal (used + 1) out
    | none => pollLoop step rest (used + 1)

/-- Terminal outcomes of the Phase 1 loop in `main`. `landed` proceeds to
`check_final_bundle_status`; the other two are the returned errors. -/
inductive Phase1Terminal where
  | landed
  | failedStatus
  | transportError (e : String)
deriving DecidableEq

/-- One Phase 1 attempt: `get_in_flight_bundle_statuses(...).await?`
propagates a transport failure out of the loop; otherwise the loop body
matches the decoded status. -/
def phase1Attempt (resp : Except String Json) : Option Phase1Terminal :=
  match resp with
  | .error e => some (.transportError e)
  | .ok j =>
    match phase1Step j with
    | .landed => some .landed
    | .failed => some .failedStatus
    | .cont => none

/-- `max_retries` of the Phase 1 loop. -/
def max_retries_inflight : Nat := 30

/-- The Phase 1 polling session: at most 30 attempts over the response
stream. -/
def runPhase1 (responses : List (Except String Json)) : PollResult Phase1Terminal :=
  pollLoop phase1Attempt (responses.take max_retries_inflight) 0

/-- The error message each Phase 1 outcome returns to the caller (`none` for
`landed`, which continues into Phase 2). -/
def phase1ErrMessage : PollResult Phase1Terminal → Option String
  | .terminal _ .landed => none
  | .terminal _ .failedStatus => some "Bundle status returned Failed"
  | .terminal _ (.transportError e) => some e
  | .exhausted n =>
    some ("Failed to confirm bundle status after " ++ toString n ++ " attempts")

/-- Terminal outcomes of `check_final_bundle_status` (Phase 2). `success`
carries the transaction id surfaced by `print_transaction_url`. -/
inductive Phase2Terminal where
  | success (displayed : Option String)
  | executionError
  | parseError
  | transportError (e : String)
deriving DecidableEq

/-- One Phase 2 attempt: `get_bundle_statuses(...).await?` propagates a
transport failure; `get_bundle_status(&status_response)?` propagates the
parse failure; then the match on `confirmation_status`, where
`check_transaction_error(...)?` propagates the execution error. -/
def phase2Attempt (resp : Except String Json) : Option Phase2Terminal :=
  match resp with
  | .error e => some (.transportError e)
  | .ok j =>
    match get_bundle_status j with
    | .error _ => some .parseError
    | .ok bs =>
      match bs.confirmation_status with
      | some "confirmed" =>
        match check_transaction_error bs with
        | .error _ => some .executionError
        | .ok _ => none
      | some "finalized" =>
        match check_transaction_error bs with
        | .error _ => some .executionError
        | .ok _ => some (.success (print_transaction_url bs))
      | some _ => none
      | none => none

/-- `max_retries` of the Phase 2 loop. -/
def max_retries_final : Nat := 10

/-- The Phase 2 polling session: at most 10 attempts. -/
def runPhase2 (responses : List (Except String Json)) : PollResult Phase2Terminal :=
  pollLoop phase2Attempt (responses.take max_retries_final) 0

/-! ## Plain-transaction confirmation (examples/basic_txn.rs) -/

/-- Terminal outcomes of the signature confirmation loop. -/
inductive TxnTerminal where
  | confirmedOk
  | txnFailed (e : String)
  | transportError (e : String)
deriving DecidableEq

/-- One signature-status attempt: `get_signature_status(...)?` propagates a
transport failure; `Some(Ok(()))` confirms (break), `Some(Err(e))` returns
the failure, `None` sleeps and retries. -/
def txnAttempt (resp : Except String (Option (Except String Unit))) :
    Option TxnTerminal :=
  match resp with
  | .error e => some (.transportError e)
  | .ok (some (.ok _)) => some .confirmedOk
  | .ok (some (.error e)) => some (.txnFailed e)
  | .ok none => none

/-- `max_retries` of the signature confirmation loop. -/
def max_retries_txn : Nat := 30

/-- The plain-transaction confirmation session: at most 30 attempts;
exhaustion is the `!confirmed` error path. -/
def runTxnConfirm (responses : List (Except String (Option (Except String Unit)))) :
    PollResult TxnTerminal :=
  pollLoop txnAttempt (responses.take max_retries_txn) 0

/-! ## Sample relay responses -/

/-- A well-formed `getInflightBundleStatuses` response with the given
status string. -/
def inflight_response (status : String) : Json :=
  .obj [("result", .obj [("value",
    .arr [.obj [("bundle_id", .str "abc123"), ("status", .str status),
                ("landed_slot", .null)]])])]

/-- A well-formed `getBundleStatuses` response with the given confirmation
status and `err` payload and one constituent transaction `sig1`. -/
def final_response (cst : String) (err : Json) : Json :=
  .obj [("result", .obj [("value",
    .arr [.obj [("bundle_id", .str "abc123"), ("confirmation_status", .str cst),
                ("err", err), ("transactions", .arr [.str "sig1"])]])])]

/-- The clean execution-error payload the relay reports on success. -/
def ok_null_payload : Json := .obj [("Ok", .null)]

/-! ## Helper lemmas about the polling loop -/

theorem pollLoop_conts {α β : Type} (step : α → Option β) (pre : List α)
    (h : ∀ x ∈ pre, step x = none) (rest : List α) (used : Nat) :
    pollLoop step (pre ++ rest) used = pollLoop step rest (used + pre.length) := by
  induction pre generalizing used with
  | nil => simp
  | cons a l ih =>
    have ha : step a = none := h a (by simp)
    simp only [List.cons_append, pollLoop, ha, List.append_eq]
    rw [ih (fun x hx => h x (by simp [hx])) (used + 1)]
    congr 1
    simp only [List.length_cons]
    omega

theorem pollLoop_head_terminal {α β : Type} (step : α → Option β) (x : α)
    (out : β) (rest : List α) (used : Nat) (h : step x = some out) :
    pollLoop step (x :: rest) used = .terminal (used + 1) out := by
  simp [pollLoop, h]

theorem pollLoop_exhausts {α β : Type} (step : α → Option β) (l : List α)
    (h : ∀ x ∈ l, step x = none) (used : Nat) :
    pollLoop step l used = .exhausted (used + l.length) := by
  have hc := pollLoop_conts step l h [] used
  rw [List.append_nil] at hc
  simpa [pollLoop] using hc

theorem take_split {α : Type} (k : Nat) (pre : List α) (x : α) (post : List α)
    (h : pre.length < k) :
    (pre ++ x :: post).take k = pre ++ x :: post.take (k - pre.length - 1) := by
  rw [List.take_append_eq_append_take, List.take_of_length_le (le_of_lt h),
      List.take_cons (by omega)]

/-- A bounded polling session whose first terminal attempt sits after a
prefix of retried attempts, within the budget, ends at that attempt with
that outcome. -/
theorem run_split {α β : Type} (step : α → Option β) (k : Nat)
    (pre post : List α) (x : α) (out : β)
    (hpre : ∀ y ∈ pre, step y = none) (hlen : pre.length < k)
    (hx : step x = some out) :
    pollLoop step ((pre ++ x :: post).take k) 0 = .terminal (pre.length + 1) out := by
  rw [take_split k pre x post hlen, pollLoop_conts step pre hpre,
      pollLoop_head_terminal step x out _ _ hx]
  simp

/-! ## Helper lemmas about round-robin selection -/

/-- Closed form of a round-robin run from a state whose cursor is in
bounds: the `t`-th selection is `(cursor + t) % n` and the final cursor is
`(cursor + k) % n`. -/
theorem rr_run_eq (n : Nat) :
    ∀ (k : Nat) (st : SelectionState), st.round_robin_index < n →
      rr_run n st k =
        ((List.range k).map (fun t => (st.round_robin_index + t) % n),
         { st with round_robin_index := (st.round_robin_index + k) % n }) := by
  intro k
  induction k with
  | zero =>
    intro st h
    simp only [rr_run, List.range_zero, List.map_nil, Nat.add_zero,
      Nat.mod_eq_of_lt h]
  | succ k ih =>
    intro st h
    have hn : 0 < n := Nat.lt_of_le_of_lt (Nat.zero_le _) h
    have h2 : ((st.round_robin_index + 1) % n) < n := Nat.mod_lt _ hn
    simp only [rr_run, select_index]
    rw [ih { st with round_robin_index := (st.round_robin_index + 1) % n } h2]
    dsimp only
    simp only [Prod.mk.injEq, SelectionState.mk.injEq]
    refine ⟨?_, ?_, trivial⟩
    · rw [List.range_succ_eq_map, List.map_cons, List.map_map]
      congr 1
      · rw [Nat.add_zero, Nat.mod_eq_of_lt h]
      · refine List.map_congr_left ?_
        intro t _
        simp only [Function.comp_apply]
        rw [Nat.mod_add_mod]
        congr 1
        omega
    · rw [Nat.mod_add_mod]
      congr 1
      omega

/-- The rotation map `t ↦ (idx + t) % n` is injective on `range n`. -/
theorem rr_rotation_inj (n idx : Nat) :
    ∀ x ∈ List.range n, ∀ y ∈ List.range n,
      (idx + x) % n = (idx + y) % n → x = y := by
  intro x hx y hy h
  have hx' : x < n := List.mem_range.mp hx
  have hy' : y < n := List.mem_range.mp hy
  have hmod : x % n = y % n := Nat.ModEq.add_left_cancel' idx h
  rw [Nat.mod_eq_of_lt hx', Nat.mod_eq_of_lt hy'] at hmod
  exact hmod

/-- Every index below `n` is hit by the rotation map on `range n`. -/
theorem rr_rotation_mem (n idx j : Nat) (hidx : idx < n) (hj : j < n) :
    j ∈ (List.range n).map (fun t => (idx + t) % n) := by
  have hn : 0 < n := Nat.lt_of_le_of_lt (Nat.zero_le _) hj
  refine List.mem_map.mpr ⟨(n + j - idx) % n, List.mem_range.mpr (Nat.mod_lt _ hn), ?_⟩
  rw [Nat.add_mod_mod]
  have : idx + (n + j - idx) = n + j := by omega
  rw [this, Nat.add_mod_left, Nat.mod_eq_of_lt hj]

/-! ## Helper lemmas about the Phase 1 / Phase 2 loop bodies -/

/-- A Phase 1 response from which no status string can be extracted takes
one of the logging arms, all of which keep polling. -/
theorem phase1Step_cont_of_unparsed (j : Json) (h : phase1StatusString j = none) :
    phase1Step j = .cont := by
  unfold phase1StatusString at h
  unfold phase1Step
  repeat' split
  all_goals first | rfl | simp_all

/-- The Phase 2 loop body is an execution-error return whenever the decoded
status is `confirmed` or `finalized` and the error payload check fails. -/
theorem phase2Attempt_execution_error (j : Json) (bs : BundleStatus)
    (hbs : get_bundle_status j = .ok bs)
    (hst : bs.confirmation_status = some "confirmed" ∨
           bs.confirmation_status = some "finalized")
    (hchk : check_transaction_error bs = .error "Transaction encountered an error") :
    phase2Attempt (.ok j) = some .executionError := by
  unfold phase2Attempt
  dsimp only
  rw [hbs]
  dsimp only
  rcases hst with hst | hst <;> rw [hst, hchk] <;> rfl

/-- The Phase 2 loop body keeps polling on a `confirmed` status whose error
payload check passes. -/
theorem phase2Attempt_confirmed_clean (j : Json) (bs : BundleStatus)
    (hbs : get_bundle_status j = .ok bs)
    (hst : bs.confirmation_status = some "confirmed")
    (hchk : check_transaction_error bs = .ok ()) :
    phase2Attempt (.ok j) = none := by
  unfold phase2Attempt
  dsimp only
  rw [hbs]
  dsimp only
  rw [hst, hchk]
  rfl

/-- The Phase 2 loop body returns success, surfacing the displayed
transaction id, on a `finalized` status whose error payload check passes. -/
theorem phase2Attempt_finalized_clean (j : Json) (bs : BundleStatus)
    (hbs : get_bundle_status j = .ok bs)
    (hst : bs.confirmation_status = some "finalized")
    (hchk : check_transaction_error bs = .ok ()) :
    phase2Attempt (.ok j) = some (.success (print_transaction_url bs)) := by
  unfold phase2Attempt
  dsimp only
  rw [hbs]
  dsimp only
  rw [hst, hchk]
  rfl

/-- The Phase 2 loop body propagates the envelope parse failure. -/
theorem phase2Attempt_parse_error (j : Json) (msg : String)
    (h : get_bundle_status j = .error msg) :
    phase2Attempt (.ok j) = some .parseError := by
  unfold phase2Attempt
  dsimp only
  rw [h]

/-- The Phase 2 loop body keeps polling when the entry decodes but carries
no parsable confirmation status. -/
theorem phase2Attempt_no_status (j : Json) (bs : BundleStatus)
    (hbs : get_bundle_status j = .ok bs)
    (hst : bs.confirmation_status = none) :
    phase2Attempt (.ok j) = none := by
  unfold phase2Attempt
  dsimp only
  rw [hbs]
  dsimp only
  rw [hst]

/-- `check_transaction_error` fails on a present payload whose `Ok` field
is not null. -/
theorem check_transaction_error_fails (bs : BundleStatus) (v : Json)
    (h : bs.err = some v) (hok : (v.index "Ok").is_null = false) :
    check_transaction_error bs = .error "Transaction encountered an error" := by
  unfold check_transaction_error
  rw [h]
  simp [hok]

/-- `check_transaction_error` passes on an absent or JSON-null payload. -/
theorem check_transaction_error_clean (bs : BundleStatus)
    (h : bs.err = none ∨ bs.err = some Json.null) :
    check_transaction_error bs = .ok () := by
  unfold check_transaction_error
  rcases h with h | h <;> rw [h]
  rfl

/-- `check_transaction_error` fails exactly on a present payload whose
`Ok` field is not null. -/
theorem check_transaction_error_spec (bs : BundleStatus) :
    check_transaction_error bs = .ok () ↔
      bs.err = none ∨ ∃ v, bs.err = some v ∧ (v.index "Ok").is_null = true := by
  unfold check_transaction_error
  rcases he : bs.err with _ | v
  · simp
  · rcases hok : (v.index "Ok").is_null with _ | _
    · simp [hok]
    · simp [hok]

/-! ## Helper lemmas about pool construction and selection -/

/-- Collecting bound clients succeeds with one client per address. -/
theorem collect_length (bindErr : String → Option String) :
    ∀ (ips : List String) (cs : List ReqwestClient),
      collectClients bindErr ips = .ok cs → cs.length = ips.length := by
  intro ips
  induction ips with
  | nil =>
    intro cs h
    unfold collectClients at h
    cases h
    rfl
  | cons ip rest ih =>
    intro cs h
    unfold collectClients at h
    rcases hb : buildBound bindErr ip with e | c <;> rw [hb] at h
    · cases h
    · rcases hc : collectClients bindErr rest with e | cs' <;> rw [hc] at h
      · cases h
      · cases h
        simp [ih cs' hc]

/-- With at least two clients, `get_client` defers to `select_client`. -/
theorem get_client_eq_select (clients : List ReqwestClient)
    (alg : IpSelectAlgorithm) (st : SelectionState) (r : Nat)
    (h : 2 ≤ clients.length) :
    get_client clients alg st r = select_client clients alg st r := by
  rcases clients with _ | ⟨a, _ | ⟨b, l⟩⟩
  · simp at h
  · simp at h
  · rfl

/-- `select_client` on a non-empty pool with an in-bounds cursor returns a
client and keeps the cursor in bounds. -/
theorem select_client_total (clients : List ReqwestClient)
    (alg : IpSelectAlgorithm) (st : SelectionState) (r : Nat)
    (hn : 1 ≤ clients.length) (hcur : st.round_robin_index < clients.length) :
    ∃ c st2, select_client clients alg st r = some (c, st2) ∧
      st2.round_robin_index < clients.length := by
  have hn0 : 0 < clients.length := hn
  unfold select_client select_index
  cases alg with
  | roundRobin =>
    dsimp only
    rw [Option.some_bind, List.getElem?_eq_getElem hcur, Option.map_some']
    exact ⟨_, _, rfl, Nat.mod_lt _ hn0⟩
  | random =>
    dsimp only
    by_cases hemp :
        ((List.range clients.length).filter
          (fun i => some i != st.last_random_ip)).isEmpty
    · rw [if_pos hemp, Option.map_some', Option.some_bind,
        List.getElem?_eq_getElem (Nat.mod_lt r hn0), Option.map_some']
      exact ⟨_, _, rfl, hcur⟩
    · rw [if_neg hemp]
      have hne : ((List.range clients.length).filter
          (fun i => some i != st.last_random_ip)) ≠ [] :=
        List.isEmpty_eq_false.mp (Bool.of_not_eq_true hemp)
      have hlen : 0 < ((List.range clients.length).filter
          (fun i => some i != st.last_random_ip)).length :=
        List.length_pos.mpr hne
      have hidx := Nat.mod_lt r hlen
      rw [List.getElem?_eq_getElem hidx, Option.map_some', Option.some_bind]
      have hmem := List.getElem_mem hidx
      rcases List.mem_filter.mp hmem with ⟨hrange, -⟩
      have hsel_lt := List.mem_range.mp hrange
      rw [List.getElem?_eq_getElem hsel_lt, Option.map_some']
      exact ⟨_, _, rfl, hcur⟩

/-! ## Claim theorems -/

/-- C5: under round-robin selection the cursor starts at 0 and each acquire
returns the client at the current cursor then advances it modulo the pool
size; hence for every pool size `n ≥ 1`, the first `n` selections are
`0, 1, …, n-1` (construction order) and from any reachable cursor any `n`
consecutive selections visit every index exactly once, returning the cursor
to its starting value before repeating, deterministically. -/
theorem round_robin_cycle (n : Nat) (last : Option Nat) (hn : 1 ≤ n) :
    (∀ (st : SelectionState) (r : Nat),
        select_index n .roundRobin st r =
          some (st.round_robin_index,
            { st with round_robin_index := (st.round_robin_index + 1) % n })) ∧
    initial_state.round_robin_index = 0 ∧
    (rr_run n ⟨0, last⟩ n).1 = List.range n ∧
    (rr_run n ⟨0, last⟩ n).2 = ⟨0, last⟩ ∧
    ∀ idx, idx < n →
      (∀ j, j < n → ((rr_run n ⟨idx, last⟩ n).1).count j = 1) ∧
      (rr_run n ⟨idx, last⟩ n).2 = ⟨idx, last⟩ := by
  have h0 : (0 : Nat) < n := hn
  refine ⟨fun st r => rfl, rfl, ?_, ?_, ?_⟩
  · rw [rr_run_eq n n ⟨0, last⟩ h0]
    dsimp only
    have hpt : ∀ t ∈ List.range n, (0 + t) % n = t := by
      intro t ht
      rw [Nat.zero_add, Nat.mod_eq_of_lt (List.mem_range.mp ht)]
    rw [List.map_congr_left hpt, List.map_id']
  · rw [rr_run_eq n n ⟨0, last⟩ h0]
    dsimp only
    rw [Nat.zero_add, Nat.mod_self]
  · intro idx hidx
    rw [rr_run_eq n n ⟨idx, last⟩ hidx]
    dsimp only
    constructor
    · intro j hj
      exact List.count_eq_one_of_mem
        ((List.nodup_range n).map_on (rr_rotation_inj n idx))
        (rr_rotation_mem n idx j hidx hj)
    · rw [Nat.add_mod_right, Nat.mod_eq_of_lt hidx]

/-- C5 witness: a pool of three endpoints is visited as `[0, 1, 2]`. -/
theorem round_robin_cycle_witness :
    (1 ≤ 3) ∧ (rr_run 3 ⟨0, none⟩ 3).1 = List.range 3 :=
  ⟨by decide, (round_robin_cycle 3 none (by decide)).2.2.1⟩

/-- C6: under random-no-repeat selection, for every pool of size `≥ 2` and
every state recording a previous selection, the chosen index is never the
previous one, lies below the pool size, and is recorded as the new last
index; every other index is reachable by some RNG draw (the draw ranges
over all indices except the previous one); and for a pool of size 1 every
acquire returns the single client with the state untouched, so repeats are
allowed. -/
theorem random_no_repeat :
    (∀ (n : Nat) (st : SelectionState) (prev r s : Nat) (st2 : SelectionState),
        2 ≤ n → st.last_random_ip = some prev →
        select_index n .random st r = some (s, st2) →
        s ≠ prev ∧ s < n ∧ st2.last_random_ip = some s) ∧
    (∀ (n : Nat) (st : SelectionState) (j : Nat),
        j < n → some j ≠ st.last_random_ip →
        select_index n .random st
            (((List.range n).filter (fun i => some i != st.last_random_ip)).indexOf j) =
          some (j, { st with last_random_ip := some j })) ∧
    (∀ (c : ReqwestClient) (alg : IpSelectAlgorithm) (st : SelectionState) (r : Nat),
        get_client [c] alg st r = some (c, st)) := by
  refine ⟨?_, ?_, fun c alg st r => rfl⟩
  · intro n st prev r s st2 hn hlast hsel
    unfold select_index at hsel
    dsimp only at hsel
    have hne : ((List.range n).filter (fun i => some i != st.last_random_ip)) ≠ [] := by
      intro hemp
      have hall := List.filter_eq_nil_iff.mp hemp
      have h0 := hall 0 (List.mem_range.mpr (by omega))
      have h1 := hall 1 (List.mem_range.mpr (by omega))
      rw [hlast] at h0 h1
      simp only [bne_iff_ne, ne_eq, not_not, Option.some.injEq] at h0 h1
      omega
    have hemp : ((List.range n).filter (fun i => some i != st.last_random_ip)).isEmpty = false :=
      List.isEmpty_eq_false.mpr hne
    rw [hemp] at hsel
    simp only [Bool.false_eq_true, if_false] at hsel
    have hlen : 0 < ((List.range n).filter (fun i => some i != st.last_random_ip)).length :=
      List.length_pos.mpr hne
    have hidx := Nat.mod_lt r hlen
    rw [List.getElem?_eq_getElem hidx, Option.map_some'] at hsel
    have hmem := List.getElem_mem hidx
    rcases List.mem_filter.mp hmem with ⟨hrange, hbne⟩
    cases hsel
    refine ⟨?_, List.mem_range.mp hrange, rfl⟩
    simp only [bne_iff_ne, ne_eq] at hbne
    intro hEq
    exact hbne (by rw [hEq, hlast])
  · intro n st j hj hne
    unfold select_index
    dsimp only
    have hmem : j ∈ (List.range n).filter (fun i => some i != st.last_random_ip) := by
      refine List.mem_filter.mpr ⟨List.mem_range.mpr hj, ?_⟩
      simp only [bne_iff_ne, ne_eq]
      exact hne
    have hnil : ((List.range n).filter (fun i => some i != st.last_random_ip)) ≠ [] :=
      List.ne_nil_of_mem hmem
    rw [List.isEmpty_eq_false.mpr hnil]
    simp only [Bool.false_eq_true, if_false]
    have hlt : ((List.range n).filter (fun i => some i != st.last_random_ip)).indexOf j <
        ((List.range n).filter (fun i => some i != st.last_random_ip)).length :=
      List.indexOf_lt_length.mpr hmem
    rw [Nat.mod_eq_of_lt hlt, List.getElem?_eq_getElem hlt, List.getElem_indexOf hlt,
      Option.map_some']

/-- C6 witness: with pool size 2 and previous index 0, the draw `5` selects
index 1 ≠ 0 and records it. -/
theorem random_no_repeat_witness :
    (1 : Nat) ≠ 0 ∧ 1 < 2 ∧ (SelectionState.mk 0 (some 1)).last_random_ip = some 1 :=
  random_no_repeat.1 2 ⟨0, some 0⟩ 0 5 1 ⟨0, some 1⟩ (by decide) rfl (by decide)

/-- C9: successful construction yields one client per configured address, or
exactly one unbound client for an empty address list, so the pool is never
empty; the initial cursor 0 is in bounds; and from any in-bounds cursor every
`get_client` call returns a client (no panic: the empty-pool branch and all
indexing are unreachable/in-bounds) and leaves the cursor strictly below the
pool size. -/
theorem selection_never_fails :
    (∀ (ips : List String) (bindErr : String → Option String)
        (cs : List ReqwestClient),
        new_clients ips bindErr = .ok cs →
        cs.length = (if ips.isEmpty then 1 else ips.length) ∧ 1 ≤ cs.length) ∧
    initial_state.round_robin_index = 0 ∧
    (∀ (clients : List ReqwestClient) (alg : IpSelectAlgorithm)
        (st : SelectionState) (r : Nat),
        1 ≤ clients.length → st.round_robin_index < clients.length →
        (get_client clients alg st r).isSome = true ∧
        ∀ (c : ReqwestClient) (st2 : SelectionState),
          get_client clients alg st r = some (c, st2) →
          st2.round_robin_index < clients.length) := by
  refine ⟨?_, rfl, ?_⟩
  · intro ips bindErr cs h
    unfold new_clients at h
    by_cases hemp : ips.isEmpty
    · rw [if_pos hemp] at h
      cases h
      rw [if_pos hemp]
      exact ⟨rfl, by decide⟩
    · rw [if_neg hemp] at h
      rw [if_neg hemp]
      have hlen := collect_length bindErr ips cs h
      have hne : ips ≠ [] := fun hnil => hemp (by rw [hnil]; rfl)
      have : 0 < ips.length := List.length_pos.mpr hne
      omega
  · intro clients alg st r h1 hcur
    by_cases h2 : 2 ≤ clients.length
    · rw [get_client_eq_select clients alg st r h2]
      obtain ⟨c, st2, hsel, hinv⟩ := select_client_total clients alg st r h1 hcur
      refine ⟨by rw [hsel]; rfl, ?_⟩
      intro c' st2' heq
      rw [hsel] at heq
      simp only [Option.some.injEq, Prod.mk.injEq] at heq
      rw [← heq.2]
      exact hinv
    · rcases clients with _ | ⟨a, _ | ⟨b, l⟩⟩
      · simp at h1
      · refine ⟨rfl, ?_⟩
        intro c' st2' heq
        have : get_client [a] alg st r = some (a, st) := rfl
        rw [this] at heq
        simp only [Option.some.injEq, Prod.mk.injEq] at heq
        rw [← heq.2]
        exact hcur
      · exact absurd (by simp : 2 ≤ (a :: b :: l).length) h2

/-- C9 witness: a two-client round-robin pool at cursor 1 serves a client
and wraps the cursor back in bounds. -/
theorem selection_never_fails_witness :
    (get_client [ReqwestClient.boundTo "10.0.0.1", ReqwestClient.boundTo "10.0.0.2"]
        .roundRobin ⟨1, none⟩ 0).isSome = true :=
  (selection_never_fails.2.2
    [ReqwestClient.boundTo "10.0.0.1", ReqwestClient.boundTo "10.0.0.2"]
    .roundRobin ⟨1, none⟩ 0 (by decide) (by decide)).1

/-- C10: the execution-error check treats a bundle status as clean exactly
when the `err` payload is absent or the payload's `Ok` field (read with the
JSON indexing the code uses: null for a missing key or non-object) is JSON
null; in particular the present, non-null payload `{"Ok": null}` is clean,
and any present payload whose `Ok` field is not null is reported as the
fatal execution error. -/
theorem execution_error_check_spec :
    (∀ bs : BundleStatus,
        check_transaction_error bs = .ok () ↔
          bs.err = none ∨ ∃ v, bs.err = some v ∧ (v.index "Ok").is_null = true) ∧
    check_transaction_error ⟨some "finalized", some ok_null_payload, none⟩ = .ok () ∧
    (∀ (bs : BundleStatus) (v : Json),
        bs.err = some v → (v.index "Ok").is_null = false →
        check_transaction_error bs = .error "Transaction encountered an error") :=
  ⟨check_transaction_error_spec, rfl, check_transaction_error_fails⟩

/-- C10 witness: a payload whose `Ok` field is the string `"oops"` is
reported as the fatal execution error. -/
theorem execution_error_check_spec_witness :
    check_transaction_error
        ⟨some "finalized", some (Json.obj [("Ok", Json.str "oops")]), none⟩ =
      .error "Transaction encountered an error" :=
  execution_error_check_spec.2.2
    ⟨some "finalized", some (Json.obj [("Ok", Json.str "oops")]), none⟩
    (Json.obj [("Ok", Json.str "oops")]) rfl rfl

/-- C7: in Phase 1, whatever came before (any run of non-terminal polls
within the 30-attempt budget) and whatever responses would follow, a poll
decoding to status `Failed` ends the session at that very attempt with the
relay-reported fatal failure — no further polling attempts happen. -/
theorem failed_aborts_immediately (pre post : List (Except String Json)) (j : Json)
    (hpre : ∀ y ∈ pre, phase1Attempt y = none)
    (hlen : pre.length < max_retries_inflight)
    (hj : phase1Step j = .failed) :
    runPhase1 (pre ++ .ok j :: post) = .terminal (pre.length + 1) .failedStatus ∧
    phase1ErrMessage (runPhase1 (pre ++ .ok j :: post)) =
      some "Bundle status returned Failed" := by
  have hstep : phase1Attempt (.ok j) = some .failedStatus := by
    unfold phase1Attempt
    dsimp only
    rw [hj]
  have h₁ : runPhase1 (pre ++ .ok j :: post) = .terminal (pre.length + 1) .failedStatus := by
    unfold runPhase1
    exact run_split phase1Attempt _ pre post _ _ hpre hlen hstep
  exact ⟨h₁, by rw [h₁]; rfl⟩

/-- C7 witness: `[Pending, Failed, Landed]` aborts at attempt 2. -/
theorem failed_aborts_immediately_witness :
    runPhase1 [.ok (inflight_response "Pending"), .ok (inflight_response "Failed"),
      .ok (inflight_response "Landed")] = .terminal 2 .failedStatus :=
  (failed_aborts_immediately [.ok (inflight_response "Pending")]
    [.ok (inflight_response "Landed")] (inflight_response "Failed")
    (by decide) (by decide) (by decide)).1

/-- C8: a Phase 1 session whose 30 polls are all non-terminal (all `Pending`
or other transient statuses) ends as a timeout-exhaustion outcome after the
full 30-attempt budget, with the exhaustion error message, and is never any
terminal outcome — in particular distinct from the relay-reported `Failed`
abort. -/
theorem exhaustion_reported_distinctly (rs : List (Except String Json))
    (hlen : rs.length = max_retries_inflight)
    (hall : ∀ y ∈ rs, phase1Attempt y = none) :
    runPhase1 rs = .exhausted 30 ∧
    phase1ErrMessage (runPhase1 rs) =
      some "Failed to confirm bundle status after 30 attempts" ∧
    ∀ (k : Nat) (t : Phase1Terminal), runPhase1 rs ≠ .terminal k t := by
  have h₁ : runPhase1 rs = .exhausted 30 := by
    unfold runPhase1
    rw [List.take_of_length_le (le_of_eq hlen),
      pollLoop_exhausts phase1Attempt rs hall 0, Nat.zero_add, hlen]
    rfl
  refine ⟨h₁, by rw [h₁]; rfl, ?_⟩
  intro k t h
  rw [h₁] at h
  exact PollResult.noConfusion h

/-- C8 witness: thirty `Pending` polls exhaust the session. -/
theorem exhaustion_reported_distinctly_witness :
    runPhase1 (List.replicate 30 (.ok (inflight_response "Pending"))) = .exhausted 30 :=
  (exhaustion_reported_distinctly
    (List.replicate 30 (.ok (inflight_response "Pending")))
    (by decide) (by decide)).1

/-- C4: in Phase 2, a poll decoding to `confirmed` with a null/absent error
payload does not terminate (the loop moves on to the next attempt), and a
poll decoding to `finalized` with a null/absent error payload terminates
with success, surfacing the first constituent transaction signature for
display. -/
theorem finalization_terminal_rules (jc jf : Json) (bsc bsf : BundleStatus)
    (hc : get_bundle_status jc = .ok bsc)
    (hcs : bsc.confirmation_status = some "confirmed")
    (hce : bsc.err = none ∨ bsc.err = some Json.null)
    (hf : get_bundle_status jf = .ok bsf)
    (hfs : bsf.confirmation_status = some "finalized")
    (hfe : bsf.err = none ∨ bsf.err = some Json.null) :
    (∀ (rest : List (Except String Json)) (used : Nat),
        pollLoop phase2Attempt (.ok jc :: rest) used =
          pollLoop phase2Attempt rest (used + 1)) ∧
    (∀ (rest : List (Except String Json)) (used : Nat),
        pollLoop phase2Attempt (.ok jf :: rest) used =
          .terminal (used + 1) (.success (bsf.transactions.bind List.head?))) := by
  have hcc : phase2Attempt (.ok jc) = none :=
    phase2Attempt_confirmed_clean jc bsc hc hcs (check_transaction_error_clean bsc hce)
  have hff : phase2Attempt (.ok jf) = some (.success (print_transaction_url bsf)) :=
    phase2Attempt_finalized_clean jf bsf hf hfs (check_transaction_error_clean bsf hfe)
  constructor
  · intro rest used
    simp [pollLoop, hcc]
  · intro rest used
    rw [pollLoop_head_terminal _ _ _ _ _ hff]
    rfl

/-- C4 witness: `[confirmed(err null), finalized(err null)]` succeeds at
attempt 2 displaying `sig1`. -/
theorem finalization_terminal_rules_witness :
    pollLoop phase2Attempt
      [.ok (final_response "confirmed" Json.null), .ok (final_response "finalized" Json.null)] 0 =
      .terminal 2 (.success (some "sig1")) := by
  have h := finalization_terminal_rules
    (final_response "confirmed" Json.null) (final_response "finalized" Json.null)
    ⟨some "confirmed", some Json.null, some ["sig1"]⟩
    ⟨some "finalized", some Json.null, some ["sig1"]⟩
    rfl rfl (Or.inr rfl) rfl rfl (Or.inr rfl)
  rw [h.1 [.ok (final_response "finalized" Json.null)] 0, h.2 [] 1]
  rfl

/-- C1 counterexample: in Phase 1 a transport failure of the very first
status request ends the whole session at attempt 1 with that error
propagated — the next poll, which would decode to `Landed`, is never made,
so the session is not retried and ends on neither a terminal relay status
nor budget exhaustion. -/
theorem transport_error_counterexample :
    runPhase1 [.error "connection reset", .ok (inflight_response "Landed")] =
      .terminal 1 (.transportError "connection reset") ∧
    runPhase1 [.error "connection reset", .ok (inflight_response "Landed")] ≠
      .terminal 2 .landed ∧
    runPhase1 [.error "connection reset", .ok (inflight_response "Landed")] ≠
      .exhausted 2 := by
  decide

/-- C1 amended: in each polling session (Phase 1, Phase 2, and the plain
transaction signature loop), a transport-level failure of a single status
request terminates the session immediately at that attempt with the error
propagated to the caller; it is not counted-and-retried. Only responses the
relay itself delivers (including JSON-RPC error envelopes) are treated as
transient and retried. -/
theorem transport_error_amended :
    (∀ (pre post : List (Except String Json)) (e : String),
        (∀ y ∈ pre, phase1Attempt y = none) → pre.length < max_retries_inflight →
        runPhase1 (pre ++ .error e :: post) =
          .terminal (pre.length + 1) (.transportError e)) ∧
    (∀ (pre post : List (Except String Json)) (e : String),
        (∀ y ∈ pre, phase2Attempt y = none) → pre.length < max_retries_final →
        runPhase2 (pre ++ .error e :: post) =
          .terminal (pre.length + 1) (.transportError e)) ∧
    (∀ (pre post : List (Except String (Option (Except String Unit)))) (e : String),
        (∀ y ∈ pre, txnAttempt y = none) → pre.length < max_retries_txn →
        runTxnConfirm (pre ++ .error e :: post) =
          .terminal (pre.length + 1) (.transportError e)) := by
  refine ⟨?_, ?_, ?_⟩ <;> intro pre post e hpre hlen
  · exact run_split phase1Attempt _ pre post _ _ hpre hlen rfl
  · exact run_split phase2Attempt _ pre post _ _ hpre hlen rfl
  · exact run_split txnAttempt _ pre post _ _ hpre hlen rfl

/-- C1 amended witness: a first-attempt connection failure ends the Phase 1
session at attempt 1. -/
theorem transport_error_amended_witness :
    runPhase1 [.error "connection refused"] =
      .terminal 1 (.transportError "connection refused") :=
  transport_error_amended.1 [] [] "connection refused" (by simp) (by decide)

/-- C2 counterexample: the payload `\x7b"Ok": null\x7d` is present and is
not JSON null, yet a `finalized` status carrying it terminates the Phase 2
session with success, not with a fatal execution error. -/
theorem execution_error_payload_counterexample :
    get_bundle_status (final_response "finalized" ok_null_payload) =
      .ok ⟨some "finalized", some ok_null_payload, some ["sig1"]⟩ ∧
    ok_null_payload ≠ Json.null ∧
    runPhase2 [.ok (final_response "finalized" ok_null_payload)] =
      .terminal 1 (.success (some "sig1")) :=
  ⟨rfl, fun h => Json.noConfusion h, rfl⟩

/-- C2 amended: in Phase 2, a poll whose decoded status is `confirmed` or
`finalized` and whose execution-error payload is present with a non-null
`Ok` field aborts the session immediately at that attempt with the fatal
execution error, and in particular never yields a success outcome; a
present payload whose `Ok` field is JSON null (such as `\x7b"Ok": null\x7d`)
is instead treated as clean. -/
theorem execution_error_amended (pre post : List (Except String Json))
    (j : Json) (bs : BundleStatus) (v : Json)
    (hpre : ∀ y ∈ pre, phase2Attempt y = none)
    (hlen : pre.length < max_retries_final)
    (hbs : get_bundle_status j = .ok bs)
    (hst : bs.confirmation_status = some "confirmed" ∨
           bs.confirmation_status = some "finalized")
    (herr : bs.err = some v) (hok : (v.index "Ok").is_null = false) :
    runPhase2 (pre ++ .ok j :: post) = .terminal (pre.length + 1) .executionError ∧
    ∀ (k : Nat) (d : Option String),
      runPhase2 (pre ++ .ok j :: post) ≠ .terminal k (.success d) := by
  have h₁ : runPhase2 (pre ++ .ok j :: post) = .terminal (pre.length + 1) .executionError := by
    unfold runPhase2
    exact run_split phase2Attempt _ pre post _ _ hpre hlen
      (phase2Attempt_execution_error j bs hbs hst
        (check_transaction_error_fails bs v herr hok))
  refine ⟨h₁, ?_⟩
  intro k d h
  rw [h₁] at h
  simp only [PollResult.terminal.injEq] at h
  exact Phase2Terminal.noConfusion h.2

/-- C2 amended witness: a `finalized` status whose payload's `Ok` field is
a string aborts at attempt 1 with the execution error. -/
theorem execution_error_amended_witness :
    runPhase2 [.ok (final_response "finalized" (Json.obj [("Ok", Json.str "InstructionError")]))] =
      .terminal 1 .executionError :=
  (execution_error_amended [] []
    (final_response "finalized" (Json.obj [("Ok", Json.str "InstructionError")]))
    ⟨some "finalized", some (Json.obj [("Ok", Json.str "InstructionError")]), some ["sig1"]⟩
    (Json.obj [("Ok", Json.str "InstructionError")])
    (by simp) (by decide) rfl (Or.inr rfl) rfl rfl).1

/-- C3 counterexample: in Phase 2, a response with no extractable
`result.value[0]` entry ends the session at attempt 1 with a hard parse
failure — it does not continue to the next attempt, which would have
finalized successfully, and does not run out the budget. -/
theorem protocol_error_counterexample :
    runPhase2 [.ok (Json.obj []), .ok (final_response "finalized" Json.null)] =
      .terminal 1 .parseError ∧
    runPhase2 [.ok (Json.obj []), .ok (final_response "finalized" Json.null)] ≠
      .terminal 2 (.success (some "sig1")) ∧
    runPhase2 [.ok (Json.obj []), .ok (final_response "finalized" Json.null)] ≠
      .exhausted 2 := by
  decide

/-- C3 amended: in Phase 1 every response from which no status string can be
extracted is transient (the loop keeps retrying); in Phase 2, a response
with no extractable `result.value[0]` entry aborts the session at that
attempt as a hard parse failure, while an extracted entry whose
`confirmation_status` is missing or unparsable is transient and retried. -/
theorem protocol_error_amended :
    (∀ j : Json, phase1StatusString j = none → phase1Attempt (.ok j) = none) ∧
    (∀ (pre post : List (Except String Json)) (j : Json) (msg : String),
        (∀ y ∈ pre, phase2Attempt y = none) → pre.length < max_retries_final →
        get_bundle_status j = .error msg →
        runPhase2 (pre ++ .ok j :: post) = .terminal (pre.length + 1) .parseError) ∧
    (∀ (j : Json) (bs : BundleStatus),
        get_bundle_status j = .ok bs → bs.confirmation_status = none →
        phase2Attempt (.ok j) = none) := by
  refine ⟨?_, ?_, fun j bs => phase2Attempt_no_status j bs⟩
  · intro j h
    unfold phase1Attempt
    dsimp only
    rw [phase1Step_cont_of_unparsed j h]
  · intro pre post j msg hpre hlen hparse
    unfold runPhase2
    exact run_split phase2Attempt _ pre post _ _ hpre hlen
      (phase2Attempt_parse_error j msg hparse)

/-- C3 amended witness: a Phase 2 response that is only a JSON-RPC shell
aborts at attempt 1 with the parse failure. -/
theorem protocol_error_amended_witness :
    runPhase2 [.ok (Json.obj [("jsonrpc", Json.str "2.0")])] = .terminal 1 .parseError :=
  protocol_error_amended.2.1 [] [] (Json.obj [("jsonrpc", Json.str "2.0")])
    "Failed to parse bundle status" (by simp) (by decide) rfl

end JitoRpc
